import Mathlib

/-!
Shallow embedding of `src/team/protocol-adapter.ts` (OMC Protocol Adapter).

The module converts between OMC's internal team record types (`TaskFile`,
`OutboxMessage`, `InboxMessage`, `HeartbeatData`, `McpWorkerMember`) and the
cli-agent-mail protocol types (`ProtocolTask`, `ProtocolMessage`,
`ProtocolHeartbeat`, `ProtocolWorkerInfo`).

Modelling conventions:
* JS string-literal unions (task/heartbeat statuses, message kinds, message
  types) are embedded as `String`; the adapter only ever compares them for
  equality with literals.
* JS numbers appearing here (pids, timestamps, counters) are embedded as
  `Int`; the adapter performs no arithmetic on them.
* A free-form `Record<string, unknown>` metadata object is embedded as its
  entry list `List (String × MetaVal)` in property order, where `MetaVal`
  covers the value shapes the adapter reads or writes; a key present with
  value `undefined` is `MetaVal.undefined`.
* The two nondeterministic reads (`new Date().toISOString()` in
  `toProtocolTask`, `Math.random().toString(36).slice(2, 8)` in
  `toProtocolMessage`) are made explicit parameters `now` and `rand`.
* An unchecked TS cast `v as T | undefined` followed by use at type `T` is
  embedded as a projection returning `none` when the stored value does not
  have shape `T`; the adapter itself only ever stores well-shaped values
  under those keys.
-/

namespace ProtocolAdapter

/-- Value shapes stored in a free-form metadata object (`unknown` values):
strings, numbers, arrays of strings, and `undefined` (a key present with
value `undefined`). -/
inductive MetaVal where
  | str (s : String)
  | num (n : Int)
  | list (l : List String)
  | undefined
deriving DecidableEq, Repr

/-- Entry list of a JS metadata object (`Record<string, unknown>`), in
property order. A JS object has no duplicate keys; `MetaWF` states that. -/
abbrev Meta := List (String × MetaVal)

/-- Well-formedness of a metadata entry list as a JS object: no duplicate
keys. -/
abbrev MetaWF (m : Meta) : Prop := (m.map Prod.fst).Nodup

/-- Property read `m[k]`; `none` models `undefined` for an absent key. -/
def metaGet (m : Meta) (k : String) : Option MetaVal :=
  (m.find? (fun p => p.1 == k)).map (fun p => p.2)

/-- Property write, as in a JS object literal: an existing key keeps its
position and gets the new value, a new key is appended at the end. -/
def objSet (m : Meta) (k : String) (v : MetaVal) : Meta :=
  if m.any (fun p => p.1 == k) then
    m.map (fun p => if p.1 == k then (k, v) else p)
  else m ++ [(k, v)]

/-- `Object.fromEntries`: keys are assigned in entry order, so a later
duplicate key overwrites the value at the first occurrence's position. -/
def fromEntries (l : Meta) : Meta :=
  l.foldl (fun acc p => objSet acc p.1 p.2) []

/-- Value stored for an optional string field: `undefined` when absent. -/
def MetaVal.ofOptStr : Option String → MetaVal
  | some s => .str s
  | none => .undefined

/-- Value stored for an optional numeric field: `undefined` when absent. -/
def MetaVal.ofOptNum : Option Int → MetaVal
  | some n => .num n
  | none => .undefined

/-- Reading a metadata value `as string | undefined`: a stored string comes
back, anything else reads as `undefined` for the adapter's purposes. -/
def MetaVal.asStr : MetaVal → Option String
  | .str s => some s
  | _ => none

/-- Reading a metadata value `as number | undefined`. -/
def MetaVal.asNum : MetaVal → Option Int
  | .num n => some n
  | _ => none

/-- JS `s || undefined` on an optional string: `undefined` and the empty
string are falsy and give `undefined`. -/
def orUndefined : Option String → Option String
  | some s => if s = "" then none else some s
  | none => none

/-- OMC internal task record (`TaskFile` from `./types.js`), with the fields
the adapter reads and writes. -/
structure TaskFile where
  id : String
  subject : String
  description : String
  activeForm : Option String
  status : String
  owner : Option String
  blocks : List String
  blockedBy : List String
  metadata : Option Meta
  claimedBy : Option String
  claimedAt : Option Int
  claimPid : Option Int
deriving DecidableEq, Repr

/-- cli-agent-mail external task record (`ProtocolTask`). -/
structure ProtocolTask where
  schema_version : Int
  id : String
  subject : String
  description : String
  status : String
  owner : Option String
  depends_on : Option (List String)
  version : Int
  metadata : Option Meta
  created_at : String
deriving DecidableEq, Repr

/-- Convert an OMC TaskFile to a ProtocolTask. `now` is the
`new Date().toISOString()` read made explicit. -/
def toProtocolTask (task : TaskFile) (now : String) : ProtocolTask :=
  { schema_version := 1
    id := task.id
    subject := task.subject
    description := task.description
    status := task.status
    owner := orUndefined task.owner
    depends_on := if task.blockedBy.length > 0 then some task.blockedBy else none
    version := 1
    metadata := some (objSet (objSet (objSet (objSet (objSet
      (task.metadata.getD [])
      "blocks" (.list task.blocks))
      "activeForm" (.ofOptStr task.activeForm))
      "claimedBy" (.ofOptStr task.claimedBy))
      "claimedAt" (.ofOptNum task.claimedAt))
      "claimPid" (.ofOptNum task.claimPid))
    created_at := now }

/-- The five reserved metadata keys of the task converters, in the order the
source filter lists them. -/
def taskReservedKeys : List String :=
  ["blocks", "activeForm", "claimedBy", "claimedAt", "claimPid"]

/-- Convert a ProtocolTask back to an OMC TaskFile. -/
def fromProtocolTask (task : ProtocolTask) : TaskFile :=
  let meta := task.metadata.getD []
  { id := task.id
    subject := task.subject
    description := task.description
    activeForm := (metaGet meta "activeForm").bind MetaVal.asStr
    status := task.status
    owner := some (task.owner.getD "")
    blocks := match metaGet meta "blocks" with
      | some (.list l) => l
      | _ => []
    blockedBy := task.depends_on.getD []
    metadata := some (fromEntries (meta.filter
      (fun p => !(taskReservedKeys.contains p.1))))
    claimedBy := (metaGet meta "claimedBy").bind MetaVal.asStr
    claimedAt := (metaGet meta "claimedAt").bind MetaVal.asNum
    claimPid := (metaGet meta "claimPid").bind MetaVal.asNum }

/-- OMC outbox message (worker → lead, JSONL): a record tagged by a message
kind, with no sender identity field. -/
structure OutboxMessage where
  type : String
  taskId : Option String
  summary : Option String
  message : Option String
  error : Option String
  requestId : Option String
  timestamp : Int
deriving DecidableEq, Repr

/-- cli-agent-mail external message. The source fields `from` and `to` are
spelled `from_` and `to_` because both are Lean keywords. -/
structure ProtocolMessage where
  message_id : String
  from_ : String
  to_ : String
  type : String
  body : String
  created_at : Int
deriving DecidableEq, Repr

/-- OMC inbox message (lead → worker). -/
structure InboxMessage where
  type : String
  content : String
  timestamp : Int
deriving DecidableEq, Repr

/-- JSON string literal: quote and backslash are escaped; escapes for control
characters are not modelled (the adapter never inspects the body). -/
def jsonStr (s : String) : String :=
  "\"" ++ s.data.foldl (fun acc c =>
    if c = '"' then acc ++ "\\\""
    else if c = '\\' then acc ++ "\\\\"
    else acc.push c) "" ++ "\""

/-- `JSON.stringify` of the fixed body object built in `toProtocolMessage`:
keys in source order, properties with value `undefined` omitted. -/
def jsonStringifyBody (msg : OutboxMessage) : String :=
  let fields : List (Option String) :=
    [some ("\"type\":" ++ jsonStr msg.type),
     msg.taskId.map (fun v => "\"taskId\":" ++ jsonStr v),
     msg.summary.map (fun v => "\"summary\":" ++ jsonStr v),
     msg.message.map (fun v => "\"message\":" ++ jsonStr v),
     msg.error.map (fun v => "\"error\":" ++ jsonStr v),
     msg.requestId.map (fun v => "\"requestId\":" ++ jsonStr v)]
  "\x7b" ++ String.intercalate "," (fields.filterMap id) ++ "\x7d"

/-- Convert an OMC OutboxMessage to a ProtocolMessage. `rand` is the
`Math.random().toString(36).slice(2, 8)` suffix made explicit. The kind
classification follows the source switch case by case. -/
def toProtocolMessage (msg : OutboxMessage) (workerName : String)
    (rand : String) : ProtocolMessage :=
  let protocolType : String :=
    if msg.type = "ready" ∨ msg.type = "idle" ∨ msg.type = "heartbeat"
        ∨ msg.type = "shutdown_ack" ∨ msg.type = "drain_ack" then "status"
    else if msg.type = "task_complete" ∨ msg.type = "task_failed" then "result"
    else if msg.type = "error" then "status"
    else "chat"
  { message_id := workerName ++ "-" ++ toString msg.timestamp ++ "-" ++ rand
    from_ := workerName
    to_ := "lead"
    type := protocolType
    body := jsonStringifyBody msg
    created_at := msg.timestamp }

/-- Convert a ProtocolMessage back to an OMC InboxMessage. -/
def fromProtocolMessage (msg : ProtocolMessage) : InboxMessage :=
  { type := if msg.type = "instruction" then "message" else "context"
    content := msg.body
    timestamp := msg.created_at }

/-- OMC internal heartbeat record (`HeartbeatData`); `status` includes the
internal-only value `"quarantined"`. -/
structure HeartbeatData where
  workerName : String
  teamName : String
  provider : String
  pid : Int
  lastPollAt : Int
  currentTaskId : Option String
  consecutiveErrors : Int
  status : String
deriving DecidableEq, Repr

/-- cli-agent-mail external heartbeat; its status enumeration has no
`"quarantined"` value. -/
structure ProtocolHeartbeat where
  pid : Int
  last_active_at : Int
  status : String
  current_task_id : Option String
  metadata : Option Meta
deriving DecidableEq, Repr

/-- Convert an OMC HeartbeatData to a ProtocolHeartbeat; `quarantined` is
OMC-only and maps to `shutdown`, with the original status preserved under
the reserved metadata key `omcStatus`. -/
def toProtocolHeartbeat (hb : HeartbeatData) : ProtocolHeartbeat :=
  let protocolStatus : String :=
    if hb.status = "quarantined" then "shutdown" else hb.status
  { pid := hb.pid
    last_active_at := hb.lastPollAt
    status := protocolStatus
    current_task_id := hb.currentTaskId
    metadata := some
      [("workerName", .str hb.workerName),
       ("teamName", .str hb.teamName),
       ("provider", .str hb.provider),
       ("consecutiveErrors", .num hb.consecutiveErrors),
       ("omcStatus", .str hb.status)] }

/-- Convert a ProtocolHeartbeat back to an OMC HeartbeatData, preferring the
original OMC values preserved in metadata and falling back to the supplied
`workerName`/`teamName`, the literal `"codex"` provider, and zero errors. -/
def fromProtocolHeartbeat (hb : ProtocolHeartbeat) (workerName : String)
    (teamName : String) : HeartbeatData :=
  let meta := hb.metadata.getD []
  let omcStatus := ((metaGet meta "omcStatus").bind MetaVal.asStr).getD hb.status
  { workerName := ((metaGet meta "workerName").bind MetaVal.asStr).getD workerName
    teamName := ((metaGet meta "teamName").bind MetaVal.asStr).getD teamName
    provider := ((metaGet meta "provider").bind MetaVal.asStr).getD "codex"
    pid := hb.pid
    lastPollAt := hb.last_active_at
    currentTaskId := hb.current_task_id
    consecutiveErrors := ((metaGet meta "consecutiveErrors").bind MetaVal.asNum).getD 0
    status := omcStatus }

/-- OMC internal worker member record (`McpWorkerMember`), with the fields
named by the spec's data model; the adapter reads only `name`, `agentType`
and `tmuxPaneId`. -/
structure McpWorkerMember where
  name : String
  agentType : String
  cwd : String
  tmuxPaneId : Option String
  subscriptions : List String
deriving DecidableEq, Repr

/-- cli-agent-mail external worker-info record. -/
structure ProtocolWorkerInfo where
  name : String
  index : Int
  role : String
  assigned_tasks : List String
  pane_id : Option String
deriving DecidableEq, Repr

/-- Convert an OMC McpWorkerMember to a ProtocolWorkerInfo; the index is
hard-coded to 0 and the assigned-task list is always empty. -/
def toProtocolWorkerInfo (member : McpWorkerMember) : ProtocolWorkerInfo :=
  { name := member.name
    index := 0
    role := member.agentType
    assigned_tasks := []
    pane_id := member.tmuxPaneId }

/-- Node `path.join(cwd, '.omc', 'state')` on a POSIX separator: the fixed
segments are appended with a single `/`; `path.join`'s normalization of
separators already inside `cwd` is not modelled (no claim depends on it,
and the fixed segments contain none). -/
def resolveStateRoot (cwd : String) : String :=
  if cwd = "" then ".omc/state"
  else if cwd.endsWith "/" then cwd ++ ".omc/state"
  else cwd ++ "/.omc/state"

/-- The five reserved metadata keys of the heartbeat converters. -/
def hbReservedKeys : List String :=
  ["workerName", "teamName", "provider", "consecutiveErrors", "omcStatus"]

/-! Concrete example records used to instantiate the theorems below. -/

/-- Example internal task: non-empty owner, empty `blockedBy`, one free-form
metadata entry that collides with no reserved key. -/
def taskExA : TaskFile :=
  { id := "t1", subject := "s", description := "d",
    activeForm := some "working", status := "pending", owner := some "alice",
    blocks := ["b1"], blockedBy := [], metadata := some [("foo", .str "bar")],
    claimedBy := some "w1", claimedAt := some 5, claimPid := some 9 }

/-- Example internal task with empty-string owner and non-empty `blockedBy`. -/
def taskExB : TaskFile :=
  { id := "t2", subject := "s2", description := "d2",
    activeForm := none, status := "in_progress", owner := some "",
    blocks := [], blockedBy := ["t1"], metadata := none,
    claimedBy := none, claimedAt := none, claimPid := none }

/-- Example external task with absent owner and a metadata mapping holding
both reserved and free-form keys. -/
def protoTaskExA : ProtocolTask :=
  { schema_version := 1, id := "t3", subject := "s3", description := "d3",
    status := "pending", owner := none, depends_on := some ["t1"],
    version := 1,
    metadata := some [("foo", .str "bar"), ("blocks", .list ["t9"]),
      ("claimedBy", .str "w2"), ("n", .num 3)],
    created_at := "2024-01-01T00:00:00.000Z" }

/-- Example external message. -/
def protoMsgExA : ProtocolMessage :=
  { message_id := "w1-42-abc123", from_ := "w1", to_ := "lead",
    type := "instruction", body := "hello", created_at := 42 }

/-- Example internal heartbeat with the internal-only status. -/
def hbExA : HeartbeatData :=
  { workerName := "w", teamName := "tm", provider := "claude", pid := 3,
    lastPollAt := 7, currentTaskId := some "t1", consecutiveErrors := 2,
    status := "quarantined" }

/-- Example external heartbeat without metadata. -/
def protoHbExA : ProtocolHeartbeat :=
  { pid := 3, last_active_at := 7, status := "running",
    current_task_id := none, metadata := none }

/-- Example internal worker member. -/
def memberExA : McpWorkerMember :=
  { name := "w1", agentType := "coder", cwd := "/repo",
    tmuxPaneId := some "%1", subscriptions := ["tasks"] }

/-! Lemmas about the metadata object model. -/

theorem metaGet_append (m m' : Meta) (k : String) :
    metaGet (m ++ m') k = (metaGet m k).or (metaGet m' k) := by
  unfold metaGet
  rw [List.find?_append]
  cases m.find? (fun p => p.1 == k) <;> simp

theorem metaGet_eq_none_iff {m : Meta} {k : String} :
    metaGet m k = none ↔ ∀ p ∈ m, p.1 ≠ k := by
  unfold metaGet
  simp [List.find?_eq_none]

theorem objSet_append_of_none {m : Meta} {k : String} (v : MetaVal)
    (h : metaGet m k = none) : objSet m k v = m ++ [(k, v)] := by
  have h' : m.any (fun p => p.1 == k) ≠ true := by
    intro hany
    simp only [List.any_eq_true, beq_iff_eq] at hany
    obtain ⟨p, hp, hk⟩ := hany
    exact metaGet_eq_none_iff.mp h p hp hk
  unfold objSet
  simp [h']

theorem metaGet_eq_none_of_not_mem {m : Meta} {k : String}
    (h : k ∉ m.map Prod.fst) : metaGet m k = none := by
  rw [metaGet_eq_none_iff]
  intro p hp hk
  exact h (hk ▸ List.mem_map_of_mem Prod.fst hp)

theorem foldl_objSet_of_nodup (m : Meta) : ∀ acc : Meta,
    (acc.map Prod.fst ++ m.map Prod.fst).Nodup →
    m.foldl (fun a p => objSet a p.1 p.2) acc = acc ++ m := by
  induction m with
  | nil => intro acc _; simp
  | cons p rest ih =>
    intro acc h
    have hd : (acc.map Prod.fst).Disjoint ((p :: rest).map Prod.fst) :=
      (List.nodup_append.mp h).2.2
    have hp1 : p.1 ∉ acc.map Prod.fst := fun hmem => hd hmem (by simp)
    have hstep : objSet acc p.1 p.2 = acc ++ [p] :=
      objSet_append_of_none _ (metaGet_eq_none_of_not_mem hp1)
    have h' : ((acc ++ [p]).map Prod.fst ++ rest.map Prod.fst).Nodup := by
      simpa [List.append_assoc] using h
    calc (p :: rest).foldl (fun a q => objSet a q.1 q.2) acc
        = rest.foldl (fun a q => objSet a q.1 q.2) (objSet acc p.1 p.2) := rfl
      _ = (acc ++ [p]) ++ rest := by rw [hstep]; exact ih (acc ++ [p]) h'
      _ = acc ++ p :: rest := by simp

theorem fromEntries_eq_self {m : Meta} (h : MetaWF m) : fromEntries m = m := by
  unfold fromEntries
  simpa using foldl_objSet_of_nodup m [] (by simpa [MetaWF] using h)

theorem asStr_ofOptStr (a : Option String) : (MetaVal.ofOptStr a).asStr = a := by
  cases a <;> rfl

theorem asNum_ofOptNum (n : Option Int) : (MetaVal.ofOptNum n).asNum = n := by
  cases n <;> rfl

/-! Claims. -/

/-- C1: for every internal task `t` with non-empty owner whose free-form
metadata contains none of the five reserved keys, converting to the protocol
task and back restores `blocks`, `blockedBy`, `activeForm`, `claimedBy`,
`claimedAt` and `claimPid` exactly; in particular an empty `blockedBy`,
sent as an absent dependency list, comes back as an empty list. -/
theorem toProtocolTask_fromProtocolTask_roundtrip (t : TaskFile) (now : String)
    (s : String) (hs : t.owner = some s) (hsne : s ≠ "")
    (hfresh : ∀ k ∈ taskReservedKeys, metaGet (t.metadata.getD []) k = none) :
    (fromProtocolTask (toProtocolTask t now)).blocks = t.blocks ∧
    (fromProtocolTask (toProtocolTask t now)).blockedBy = t.blockedBy ∧
    (fromProtocolTask (toProtocolTask t now)).activeForm = t.activeForm ∧
    (fromProtocolTask (toProtocolTask t now)).claimedBy = t.claimedBy ∧
    (fromProtocolTask (toProtocolTask t now)).claimedAt = t.claimedAt ∧
    (fromProtocolTask (toProtocolTask t now)).claimPid = t.claimPid := by
  have h1 := hfresh "blocks" (by simp [taskReservedKeys])
  have h2 := hfresh "activeForm" (by simp [taskReservedKeys])
  have h3 := hfresh "claimedBy" (by simp [taskReservedKeys])
  have h4 := hfresh "claimedAt" (by simp [taskReservedKeys])
  have h5 := hfresh "claimPid" (by simp [taskReservedKeys])
  have hmeta : (toProtocolTask t now).metadata.getD [] = (t.metadata.getD []) ++
      [("blocks", MetaVal.list t.blocks),
       ("activeForm", MetaVal.ofOptStr t.activeForm),
       ("claimedBy", MetaVal.ofOptStr t.claimedBy),
       ("claimedAt", MetaVal.ofOptNum t.claimedAt),
       ("claimPid", MetaVal.ofOptNum t.claimPid)] := by
    set base := t.metadata.getD [] with hbase
    set vb := MetaVal.list t.blocks with hvb
    set va := MetaVal.ofOptStr t.activeForm with hva
    set vc := MetaVal.ofOptStr t.claimedBy with hvc
    set vd := MetaVal.ofOptNum t.claimedAt with hvd
    set ve := MetaVal.ofOptNum t.claimPid with hve
    have e1 : objSet base "blocks" vb = base ++ [("blocks", vb)] :=
      objSet_append_of_none _ h1
    have e2 : objSet (base ++ [("blocks", vb)]) "activeForm" va =
        base ++ [("blocks", vb), ("activeForm", va)] := by
      rw [objSet_append_of_none _ (by rw [metaGet_append, h2]; rfl)]
      simp
    have e3 : objSet (base ++ [("blocks", vb), ("activeForm", va)]) "claimedBy" vc =
        base ++ [("blocks", vb), ("activeForm", va), ("claimedBy", vc)] := by
      rw [objSet_append_of_none _ (by rw [metaGet_append, h3]; rfl)]
      simp
    have e4 : objSet (base ++ [("blocks", vb), ("activeForm", va), ("claimedBy", vc)])
        "claimedAt" vd =
        base ++ [("blocks", vb), ("activeForm", va), ("claimedBy", vc),
          ("claimedAt", vd)] := by
      rw [objSet_append_of_none _ (by rw [metaGet_append, h4]; rfl)]
      simp
    have e5 : objSet (base ++ [("blocks", vb), ("activeForm", va), ("claimedBy", vc),
        ("claimedAt", vd)]) "claimPid" ve =
        base ++ [("blocks", vb), ("activeForm", va), ("claimedBy", vc),
          ("claimedAt", vd), ("claimPid", ve)] := by
      rw [objSet_append_of_none _ (by rw [metaGet_append, h5]; rfl)]
      simp
    simp only [toProtocolTask, Option.getD_some]
    rw [e1, e2, e3, e4, e5]
  refine ⟨?_, ?_, ?_, ?_, ?_, ?_⟩
  · simp only [fromProtocolTask]
    rw [hmeta, metaGet_append, h1]
    rfl
  · cases hbb : t.blockedBy with
    | nil => simp [fromProtocolTask, toProtocolTask, hbb]
    | cons a l => simp [fromProtocolTask, toProtocolTask, hbb]
  · simp only [fromProtocolTask]
    rw [hmeta, metaGet_append, h2]
    exact asStr_ofOptStr t.activeForm
  · simp only [fromProtocolTask]
    rw [hmeta, metaGet_append, h3]
    exact asStr_ofOptStr t.claimedBy
  · simp only [fromProtocolTask]
    rw [hmeta, metaGet_append, h4]
    exact asNum_ofOptNum t.claimedAt
  · simp only [fromProtocolTask]
    rw [hmeta, metaGet_append, h5]
    exact asNum_ofOptNum t.claimPid

/-- Witness for C1 at a concrete task with owner `"alice"`, one non-reserved
metadata entry and empty `blockedBy`. -/
theorem toProtocolTask_fromProtocolTask_roundtrip_witness :
    (fromProtocolTask (toProtocolTask taskExA "2024-01-01T00:00:00.000Z")).blocks
      = taskExA.blocks ∧
    (fromProtocolTask (toProtocolTask taskExA "2024-01-01T00:00:00.000Z")).blockedBy
      = taskExA.blockedBy ∧
    (fromProtocolTask (toProtocolTask taskExA "2024-01-01T00:00:00.000Z")).activeForm
      = taskExA.activeForm ∧
    (fromProtocolTask (toProtocolTask taskExA "2024-01-01T00:00:00.000Z")).claimedBy
      = taskExA.claimedBy ∧
    (fromProtocolTask (toProtocolTask taskExA "2024-01-01T00:00:00.000Z")).claimedAt
      = taskExA.claimedAt ∧
    (fromProtocolTask (toProtocolTask taskExA "2024-01-01T00:00:00.000Z")).claimPid
      = taskExA.claimPid :=
  toProtocolTask_fromProtocolTask_roundtrip taskExA "2024-01-01T00:00:00.000Z"
    "alice" rfl (by decide) (by decide)

/-- C2: the heartbeat round trip restores the internal status exactly for
every internal heartbeat and every pair of fallback names, including the
internal-only status `"quarantined"`, because the forward direction preserves
the original status in metadata under `omcStatus` and the reverse direction
prefers that key over the external status field. -/
theorem heartbeat_status_roundtrip (h : HeartbeatData) (w t : String) :
    (fromProtocolHeartbeat (toProtocolHeartbeat h) w t).status = h.status := by
  rfl

/-- C3: `toProtocolMessage` classifies the internal kind into the external
type: `ready`, `idle`, `heartbeat`, `shutdown_ack`, `drain_ack` and `error`
give `status`; `task_complete` and `task_failed` give `result`; every other
kind gives `chat`. -/
theorem toProtocolMessage_type_classification (msg : OutboxMessage)
    (w rand : String) :
    (toProtocolMessage msg w rand).type =
      if msg.type ∈ ["ready", "idle", "heartbeat", "shutdown_ack", "drain_ack",
        "error"] then "status"
      else if msg.type ∈ ["task_complete", "task_failed"] then "result"
      else "chat" := by
  simp only [toProtocolMessage, List.mem_cons, List.mem_singleton,
    List.not_mem_nil, or_false]
  split_ifs <;> simp_all

/-- C4: for every external task with a well-formed (duplicate-free) metadata
object, the free-form metadata of `fromProtocolTask` is exactly the external
metadata restricted to the keys outside the reserved set: every non-reserved
entry is copied through unchanged and none of the five reserved keys appears
in the result. -/
theorem fromProtocolTask_metadata_restriction (e : ProtocolTask)
    (h : MetaWF (e.metadata.getD [])) :
    (fromProtocolTask e).metadata =
      some ((e.metadata.getD []).filter
        (fun p => !(taskReservedKeys.contains p.1))) := by
  have hwf : MetaWF ((e.metadata.getD []).filter
      (fun p => !(taskReservedKeys.contains p.1))) :=
    h.sublist ((List.filter_sublist _).map Prod.fst)
  simp only [fromProtocolTask]
  rw [fromEntries_eq_self hwf]

/-- Witness for C4 at a concrete external task whose metadata mixes reserved
and non-reserved keys. -/
theorem fromProtocolTask_metadata_restriction_witness :
    (fromProtocolTask protoTaskExA).metadata =
      some ((protoTaskExA.metadata.getD []).filter
        (fun p => !(taskReservedKeys.contains p.1))) :=
  fromProtocolTask_metadata_restriction protoTaskExA (by decide)

/-- C5: a heartbeat with the internal-only status `"quarantined"` converts
to an external heartbeat whose status is `"shutdown"` and whose metadata
entry under `omcStatus` is `"quarantined"`. -/
theorem toProtocolHeartbeat_quarantined (hb : HeartbeatData)
    (h : hb.status = "quarantined") :
    (toProtocolHeartbeat hb).status = "shutdown" ∧
    metaGet ((toProtocolHeartbeat hb).metadata.getD []) "omcStatus" =
      some (.str "quarantined") := by
  constructor
  · simp [toProtocolHeartbeat, h]
  · simp [toProtocolHeartbeat, metaGet, h]

/-- Witness for C5 at a concrete quarantined heartbeat. -/
theorem toProtocolHeartbeat_quarantined_witness :
    (toProtocolHeartbeat hbExA).status = "shutdown" ∧
    metaGet ((toProtocolHeartbeat hbExA).metadata.getD []) "omcStatus" =
      some (.str "quarantined") :=
  toProtocolHeartbeat_quarantined hbExA rfl

/-- C6: for every external heartbeat whose metadata carries none of the
reserved heartbeat keys (in particular when metadata is absent),
`fromProtocolHeartbeat` falls back to the supplied worker and team names,
the literal provider `"codex"`, zero consecutive errors, and the external
status field verbatim. -/
theorem fromProtocolHeartbeat_fallback_defaults (e : ProtocolHeartbeat)
    (w t : String)
    (h : ∀ k ∈ hbReservedKeys, metaGet (e.metadata.getD []) k = none) :
    (fromProtocolHeartbeat e w t).workerName = w ∧
    (fromProtocolHeartbeat e w t).teamName = t ∧
    (fromProtocolHeartbeat e w t).provider = "codex" ∧
    (fromProtocolHeartbeat e w t).consecutiveErrors = 0 ∧
    (fromProtocolHeartbeat e w t).status = e.status := by
  have h1 := h "workerName" (by simp [hbReservedKeys])
  have h2 := h "teamName" (by simp [hbReservedKeys])
  have h3 := h "provider" (by simp [hbReservedKeys])
  have h4 := h "consecutiveErrors" (by simp [hbReservedKeys])
  have h5 := h "omcStatus" (by simp [hbReservedKeys])
  refine ⟨?_, ?_, ?_, ?_, ?_⟩ <;>
    simp [fromProtocolHeartbeat, h1, h2, h3, h4, h5]

/-- Witness for C6 at a metadata-free external heartbeat with fallbacks
`("w1", "t1")`. -/
theorem fromProtocolHeartbeat_fallback_defaults_witness :
    (fromProtocolHeartbeat protoHbExA "w1" "t1").workerName = "w1" ∧
    (fromProtocolHeartbeat protoHbExA "w1" "t1").teamName = "t1" ∧
    (fromProtocolHeartbeat protoHbExA "w1" "t1").provider = "codex" ∧
    (fromProtocolHeartbeat protoHbExA "w1" "t1").consecutiveErrors = 0 ∧
    (fromProtocolHeartbeat protoHbExA "w1" "t1").status = protoHbExA.status :=
  fromProtocolHeartbeat_fallback_defaults protoHbExA "w1" "t1" (by decide)

/-- C7: owner handling is asymmetric between the task converters: an unset
or empty-string internal owner becomes an absent external owner, while an
absent external owner becomes the empty string (a present empty-string
owner field) internally. -/
theorem owner_handling_asymmetry (t : TaskFile) (e : ProtocolTask)
    (now : String) :
    ((t.owner = none ∨ t.owner = some "") → (toProtocolTask t now).owner = none) ∧
    (e.owner = none → (fromProtocolTask e).owner = some "") := by
  constructor
  · rintro (h | h) <;> simp [toProtocolTask, orUndefined, h]
  · intro h
    simp [fromProtocolTask, h]

/-- Witness for C7: an empty-string owner goes out absent, an absent owner
comes back as the empty string. -/
theorem owner_handling_asymmetry_witness :
    (toProtocolTask taskExB "2024-01-01T00:00:00.000Z").owner = none ∧
    (fromProtocolTask protoTaskExA).owner = some "" :=
  ⟨(owner_handling_asymmetry taskExB protoTaskExA "2024-01-01T00:00:00.000Z").1
      (Or.inr rfl),
   (owner_handling_asymmetry taskExB protoTaskExA "2024-01-01T00:00:00.000Z").2
      rfl⟩

/-- C8: `toProtocolTask` sends an empty `blockedBy` as an absent dependency
list (not an empty list), and a non-empty `blockedBy` as the list itself. -/
theorem toProtocolTask_depends_on_empty_absent (t : TaskFile) (now : String) :
    (t.blockedBy = [] → (toProtocolTask t now).depends_on = none) ∧
    (t.blockedBy ≠ [] → (toProtocolTask t now).depends_on = some t.blockedBy) := by
  constructor
  · intro h
    simp [toProtocolTask, h]
  · intro h
    simp [toProtocolTask, List.length_pos.mpr h]

/-- Witness for C8: a task with empty `blockedBy` and a task with
`blockedBy = ["t1"]`. -/
theorem toProtocolTask_depends_on_empty_absent_witness :
    (toProtocolTask taskExA "2024-01-01T00:00:00.000Z").depends_on = none ∧
    (toProtocolTask taskExB "2024-01-01T00:00:00.000Z").depends_on = some ["t1"] :=
  ⟨(toProtocolTask_depends_on_empty_absent taskExA "2024-01-01T00:00:00.000Z").1 rfl,
   (toProtocolTask_depends_on_empty_absent taskExB "2024-01-01T00:00:00.000Z").2
     (by decide)⟩

/-- C9: `fromProtocolMessage` yields the internal type `"message"` exactly
when the external type is `"instruction"` and `"context"` for every other
external type; the body is copied verbatim into `content` and the creation
timestamp is copied verbatim. -/
theorem fromProtocolMessage_classification (m : ProtocolMessage) :
    (fromProtocolMessage m).type =
      (if m.type = "instruction" then "message" else "context") ∧
    (fromProtocolMessage m).content = m.body ∧
    (fromProtocolMessage m).timestamp = m.created_at :=
  ⟨rfl, rfl, rfl⟩

/-- C10: the converters that involve neither the current-time read nor the
random suffix are deterministic. In this embedding the two effectful reads
are explicit parameters (`now` of `toProtocolTask`, `rand` of
`toProtocolMessage`); the six functions below take no such parameter, so
their output depends only on the arguments: equal inputs give equal
outputs, with no cross-call state. -/
theorem pure_converters_deterministic :
    (∀ a b : ProtocolTask, a = b → fromProtocolTask a = fromProtocolTask b) ∧
    (∀ a b : ProtocolMessage, a = b →
      fromProtocolMessage a = fromProtocolMessage b) ∧
    (∀ a b : HeartbeatData, a = b →
      toProtocolHeartbeat a = toProtocolHeartbeat b) ∧
    (∀ (a b : ProtocolHeartbeat) (w₁ w₂ t₁ t₂ : String),
      a = b → w₁ = w₂ → t₁ = t₂ →
      fromProtocolHeartbeat a w₁ t₁ = fromProtocolHeartbeat b w₂ t₂) ∧
    (∀ a b : McpWorkerMember, a = b →
      toProtocolWorkerInfo a = toProtocolWorkerInfo b) ∧
    (∀ a b : String, a = b → resolveStateRoot a = resolveStateRoot b) := by
  refine ⟨?_, ?_, ?_, ?_, ?_, ?_⟩ <;> intros <;> subst_vars <;> rfl

/-- Witness for C10 at concrete inputs for each of the six converters. -/
theorem pure_converters_deterministic_witness :
    fromProtocolTask protoTaskExA = fromProtocolTask protoTaskExA ∧
    fromProtocolMessage protoMsgExA = fromProtocolMessage protoMsgExA ∧
    toProtocolHeartbeat hbExA = toProtocolHeartbeat hbExA ∧
    fromProtocolHeartbeat protoHbExA "w1" "t1" =
      fromProtocolHeartbeat protoHbExA "w1" "t1" ∧
    toProtocolWorkerInfo memberExA = toProtocolWorkerInfo memberExA ∧
    resolveStateRoot "/home/x" = resolveStateRoot "/home/x" :=
  ⟨pure_converters_deterministic.1 protoTaskExA protoTaskExA rfl,
   pure_converters_deterministic.2.1 protoMsgExA protoMsgExA rfl,
   pure_converters_deterministic.2.2.1 hbExA hbExA rfl,
   pure_converters_deterministic.2.2.2.1 protoHbExA protoHbExA
     "w1" "w1" "t1" "t1" rfl rfl rfl,
   pure_converters_deterministic.2.2.2.2.1 memberExA memberExA rfl,
   pure_converters_deterministic.2.2.2.2.2 "/home/x" "/home/x" rfl⟩

end ProtocolAdapter
